import Mathlib

/-!
Verification of the streaming core of py-ndjson-proxy (src/json-proxy.py).

The relay `stream_generator` is embedded as a fuel-indexed interpreter over an
explicit state: the clock (in milliseconds), the time of the last forwarded
line, the `task_completed` flag, and the two Redis keys owned by the task (the
metadata key, modelled by a Boolean for existence, and the output list,
modelled by a Lean list of strings).  The producer and any external actor are
modelled by a schedule of per-tick environment actions: time passing, lines
appended to the tail of the output list (before the tick or during its drain
loop), and external deletion of the metadata key.  Appends that arrive while
the drain loop is running commute with the drain (the drain pops at most the
snapshot count from the head, appends go to the tail), so they are applied
right after the length snapshot is taken; this is equivalent to any
interleaving.  The `finally` block of the generator is modelled by `destroy`,
applied to the exit state of every run, including runs cut short at an
arbitrary point (client disconnect or an exception raised mid-stream).
-/

namespace NdjsonProxy

/-- Whitespace characters removed by the strip call on popped items
(space, tab, newline, carriage return, vertical tab, form feed). -/
def isPySpace (c : Char) : Bool :=
  (c == ' ') || (c == '\t') || (c == '\n') || (c == '\r') ||
  (c == Char.ofNat 11) || (c == Char.ofNat 12)

/-- `raw_item.strip()` from line 355: remove leading and trailing whitespace. -/
def pyStrip (s : String) : String :=
  String.mk (((s.data.dropWhile isPySpace).reverse.dropWhile isPySpace).reverse)

/-- `message.replace("\n", "")` from line 377: remove every newline character. -/
def removeNewlines (s : String) : String :=
  String.mk (s.data.filter (fun c => c != '\n'))

/-- The termination-sentinel test of line 366:
`message in ("END-OF-FILE", "END-OF-LIST", "EOL", "EOF")`. -/
def isSentinel (m : String) : Bool :=
  (m == "END-OF-FILE") || (m == "END-OF-LIST") || (m == "EOL") || (m == "EOF")

/-- Relay configuration: INTERVAL, PAUSE, MAXTIME (milliseconds) and
MAXTIME_ERROR from the global configuration block. -/
structure Config where
  interval : Nat
  pause : Nat
  maxtime : Nat
  maxtimeError : String
  deriving DecidableEq

/-- Relay state: the clock and `last_message_time` in milliseconds, the
`task_completed` flag, and the two task-owned Redis keys (existence of the
metadata key, contents of the output list). -/
structure St where
  clock : Nat
  lastMessageTime : Nat
  taskCompleted : Bool
  keyExists : Bool
  outList : List String
  deriving DecidableEq

/-- Environment actions applied around one iteration of the polling loop:
time passing since the previous interaction, producer lines appended before
the tick, an external deletion of the metadata key, and lines appended while
the drain loop of this tick is running. -/
structure TickEnv where
  dt : Nat
  preAppends : List String
  delKey : Bool
  midAppends : List String
  deriving DecidableEq

/-- The do-nothing environment (no time passes, nothing appended). -/
def quietEnv : TickEnv := { dt := 0, preAppends := [], delKey := false, midAppends := [] }

/-- An environment that appends the given producer lines before a tick. -/
def appendEnv (ch : List String) : TickEnv :=
  { dt := 0, preAppends := ch, delKey := false, midAppends := [] }

/-- How a run of the relay ended: `running` means the run was cut short
(fuel exhausted, which also models a client disconnect mid-stream), `done` is
the break of line 313, `timedOut` the break of line 330. -/
inductive Status
  | running
  | done
  | timedOut
  deriving DecidableEq

/-- Result of a tick or of a whole run: the lines yielded to the client, the
resulting state, and the status. -/
structure RunOut where
  out : List String
  st : St
  status : Status
  deriving DecidableEq

/-- Outcome of the drain-loop body (lines 346 to 384) for one popped item. -/
inductive ItemOutcome
  | skip
  | sentinel
  | forward (line : String)
  deriving DecidableEq

/-- Classification of one popped raw item, following lines 355 to 381:
strip it, skip it when empty, recognise a termination sentinel, otherwise
forward it with interior newlines removed. -/
def classifyItem (raw : String) : ItemOutcome :=
  if pyStrip raw = "" then ItemOutcome.skip
  else if isSentinel (pyStrip raw) = true then ItemOutcome.sentinel
  else ItemOutcome.forward (removeNewlines (pyStrip raw))

/-- The drain loop of lines 344 to 385: `for item_id in range(list_length)`.
The fuel is the length snapshot taken at line 302; each iteration pops one
item from the head (an empty list models `lpop` returning None, which the code
skips).  A forwarded line updates `last_message_time` to the current clock and
the pacing sleep advances the clock by `pause`.  A sentinel sets
`task_completed` and breaks out of the loop at once. -/
def drain (cfg : Config) : Nat → St → List String × St
  | 0, st => ([], st)
  | n + 1, st =>
    match st.outList with
    | [] => drain cfg n st
    | raw :: rest =>
      match classifyItem raw with
      | ItemOutcome.skip => drain cfg n { st with outList := rest }
      | ItemOutcome.sentinel => ([], { st with outList := rest, taskCompleted := true })
      | ItemOutcome.forward line =>
        let d := drain cfg n { st with outList := rest,
                                       lastMessageTime := st.clock,
                                       clock := st.clock + cfg.pause }
        ((line ++ "\n") :: d.1, d.2)

/-- Environment effects applied at the start of a tick: time passes, the
producer may have appended lines to the tail, an external actor may have
deleted the metadata key. -/
def applyEnv (env : TickEnv) (st : St) : St :=
  { st with clock := st.clock + env.dt,
            keyExists := st.keyExists && !env.delKey,
            outList := st.outList ++ env.preAppends }

/-- One iteration of the while loop of lines 292 to 386: check the metadata
key (line 295), snapshot the list length (line 302), break with DONE when the
task is completed and the list is empty (line 313), otherwise on an empty list
check the idle timeout (lines 321 to 330, yielding the configured message when
it is nonempty) or sleep one poll interval, and on a nonempty list run the
drain loop on the snapshot. -/
def tick (cfg : Config) (env : TickEnv) (st0 : St) : RunOut :=
  let st1 := applyEnv env st0
  let st2 := if st1.keyExists = true then st1 else { st1 with taskCompleted := true }
  let n := st2.outList.length
  if st2.taskCompleted = true ∧ n = 0 then
    { out := [], st := st2, status := Status.done }
  else if n = 0 then
    if cfg.maxtime < st2.clock - st2.lastMessageTime then
      { out := if cfg.maxtimeError = "" then [] else [cfg.maxtimeError ++ "\n"],
        st := st2, status := Status.timedOut }
    else
      { out := [], st := { st2 with clock := st2.clock + cfg.interval },
        status := Status.running }
  else
    let d := drain cfg n { st2 with outList := st2.outList ++ env.midAppends }
    { out := d.1, st := d.2, status := Status.running }

/-- The while loop of the generator, driven by a schedule of environment
actions (one per tick, `quietEnv` once the schedule is exhausted) and cut off
by fuel.  Exhausted fuel leaves the status `running`: the run was interrupted
before the loop broke on its own, which models a client disconnect or an
exception raised mid-stream. -/
def run (cfg : Config) : List TickEnv → Nat → St → RunOut
  | _, 0, st => { out := [], st := st, status := Status.running }
  | envs, fuel + 1, st =>
    let t := tick cfg (envs.headD quietEnv) st
    if t.status = Status.running then
      let r := run cfg envs.tail fuel t.st
      { out := t.out ++ r.out, st := r.st, status := r.status }
    else t

/-- The `finally` block of lines 389 to 397: delete the metadata key and the
output list key unconditionally. -/
def destroy (st : St) : St :=
  { st with keyExists := false, outList := [] }

/-- `stream_generator` (lines 269 to 398): the polling loop followed by the
scope-guaranteed cleanup, which runs whether the loop broke on its own
(DONE or TIMED_OUT) or the run was cut short at an arbitrary point. -/
def stream_generator (cfg : Config) (envs : List TickEnv) (fuel : Nat) (st0 : St) : RunOut :=
  let r := run cfg envs fuel st0
  { out := r.out, st := destroy r.st, status := r.status }

/-- The state at stream start (line 281): `last_message_time = start_time`,
`task_completed = False`, with the given initial store contents. -/
def initSt (clock : Nat) (keyExists : Bool) (outList : List String) : St :=
  { clock := clock, lastMessageTime := clock, taskCompleted := false,
    keyExists := keyExists, outList := outList }

/-- A line is clean when it is already in the form the relay forwards
verbatim: stripped of edge whitespace, free of newlines, nonempty, and not a
termination sentinel. -/
def cleanLine (l : String) : Bool :=
  (pyStrip l == l) && (removeNewlines l == l) && (!(l == "")) && (!(isSentinel l))

/-- An output unit is well framed when it contains exactly one newline
character and that newline is its last character. -/
def wellFramed (u : String) : Bool :=
  (u.data.count '\n' == 1) && (u.data.getLast? == some '\n')

/-- Task registry configuration: REDIS_KEY_PREFIX, REDIS_LIST_PREFIX,
REDIS_CHANNEL and REDIS_TTL. -/
structure ProxyCfg where
  keyPre : String
  listPre : String
  channel : String
  ttl : Nat
  deriving DecidableEq

/-- The serialized task record written by `create_task` (lines 245 to 252). -/
structure TaskData where
  uuid : String
  task_key : String
  task_list : String
  request_time : Nat
  headers : List (String × String)
  body : String
  deriving DecidableEq

/-- Writes performed against the shared store: SET-with-expiry operations and
channel publications. -/
structure StoreOps where
  sets : List (String × TaskData × Nat)
  publishes : List (String × String)
  deriving DecidableEq

/-- `create_task` (lines 226 to 266): derive the two keys from the uuid,
write the metadata record with the configured expiry, publish the metadata
key on the configured channel. -/
def create_task (pc : ProxyCfg) (now : Nat) (task_uuid : String)
    (headers : List (String × String)) (body : String) :
    (String × String × String) × StoreOps :=
  let task_key := pc.keyPre ++ "_" ++ task_uuid
  let task_list := pc.listPre ++ "_" ++ task_uuid
  let data : TaskData :=
    { uuid := task_uuid, task_key := task_key, task_list := task_list,
      request_time := now, headers := headers, body := body }
  ((task_uuid, task_key, task_list),
   { sets := [(task_key, data, pc.ttl)], publishes := [(pc.channel, task_key)] })

/-- `redis_ping` (lines 207 to 219): reports whether the store answered the
ping; an exception makes it return False. -/
def redis_ping (storeAlive : Bool) : Bool := storeAlive

/-- The two response shapes of `handle_request`: the early unavailable-store
error and the streaming NDJSON response carrying the task identifiers. -/
inductive HttpResp
  | error (status : Nat) (body : String)
  | stream (task_uuid : String) (task_key : String) (task_list : String)
  deriving DecidableEq

/-- `handle_request` (lines 424 to 472): a failed ping check returns the 504
error at once with no store writes; otherwise a task is created and the
streaming response is returned. -/
def handle_request (pc : ProxyCfg) (storeAlive : Bool) (now : Nat) (task_uuid : String)
    (headers : List (String × String)) (body : String) : HttpResp × StoreOps :=
  if redis_ping storeAlive = false then
    (HttpResp.error 504 ("\x7b\"error\": \"event-driver unavailable\"\x7d\n"),
     { sets := [], publishes := [] })
  else
    let r := create_task pc now task_uuid headers body
    (HttpResp.stream r.1.1 r.1.2.1 r.1.2.2, r.2)

/-! ### Unfolding equations for the drain loop -/

theorem drain_zero (cfg : Config) (st : St) : drain cfg 0 st = ([], st) := rfl

theorem drain_succ_nil (cfg : Config) (n : Nat) (st : St) (h : st.outList = []) :
    drain cfg (n + 1) st = drain cfg n st := by
  obtain ⟨c, l, t, k, o⟩ := st
  have ho : o = [] := h
  subst ho
  rfl

theorem drain_succ_skip (cfg : Config) (n : Nat) (st : St) (raw : String)
    (rest : List String) (h : st.outList = raw :: rest)
    (hc : classifyItem raw = ItemOutcome.skip) :
    drain cfg (n + 1) st = drain cfg n { st with outList := rest } := by
  obtain ⟨c, l, t, k, o⟩ := st
  have ho : o = raw :: rest := h
  subst ho
  simp only [drain, hc]

theorem drain_succ_sentinel (cfg : Config) (n : Nat) (st : St) (raw : String)
    (rest : List String) (h : st.outList = raw :: rest)
    (hc : classifyItem raw = ItemOutcome.sentinel) :
    drain cfg (n + 1) st = ([], { st with outList := rest, taskCompleted := true }) := by
  obtain ⟨c, l, t, k, o⟩ := st
  have ho : o = raw :: rest := h
  subst ho
  simp only [drain, hc]

theorem drain_succ_forward (cfg : Config) (n : Nat) (st : St) (raw line : String)
    (rest : List String) (h : st.outList = raw :: rest)
    (hc : classifyItem raw = ItemOutcome.forward line) :
    drain cfg (n + 1) st =
      ((line ++ "\n") ::
        (drain cfg n { st with outList := rest, lastMessageTime := st.clock,
                               clock := st.clock + cfg.pause }).1,
       (drain cfg n { st with outList := rest, lastMessageTime := st.clock,
                              clock := st.clock + cfg.pause }).2) := by
  obtain ⟨c, l, t, k, o⟩ := st
  have ho : o = raw :: rest := h
  subst ho
  simp only [drain, hc]

/-! ### Classification lemmas -/

theorem sentinel_cases (s : String) (h : isSentinel s = true) :
    s = "END-OF-FILE" ∨ s = "END-OF-LIST" ∨ s = "EOL" ∨ s = "EOF" := by
  simp only [isSentinel, Bool.or_eq_true, beq_iff_eq] at h
  tauto

theorem sentinel_pyStrip (s : String) (h : isSentinel s = true) : pyStrip s = s := by
  rcases sentinel_cases s h with rfl | rfl | rfl | rfl <;> decide

theorem sentinel_classify_raw (raw : String) (h : isSentinel (pyStrip raw) = true) :
    classifyItem raw = ItemOutcome.sentinel := by
  unfold classifyItem
  by_cases he : pyStrip raw = ""
  · rw [he] at h
    exact absurd h (by decide)
  · simp [he, h]

theorem sentinel_classify (s : String) (h : isSentinel s = true) :
    classifyItem s = ItemOutcome.sentinel :=
  sentinel_classify_raw s (by rw [sentinel_pyStrip s h]; exact h)

theorem cleanLine_spec (l : String) (h : cleanLine l = true) :
    pyStrip l = l ∧ removeNewlines l = l ∧ l ≠ "" ∧ isSentinel l = false := by
  simp only [cleanLine, Bool.and_eq_true, beq_iff_eq, Bool.not_eq_true',
    beq_eq_false_iff_ne, ne_eq] at h
  exact ⟨h.1.1.1, h.1.1.2, h.1.2, h.2⟩

theorem clean_classify (l : String) (h : cleanLine l = true) :
    classifyItem l = ItemOutcome.forward l := by
  obtain ⟨h1, h2, h3, h4⟩ := cleanLine_spec l h
  simp [classifyItem, h1, h2, h3, h4]

theorem empty_classify (raw : String) (h : pyStrip raw = "") :
    classifyItem raw = ItemOutcome.skip := by
  simp [classifyItem, h]

/-! ### Drain-loop behaviour -/

/-- Draining a snapshot whose first part is a run of clean lines forwards
exactly those lines in order, leaves the remainder of the list untouched, and
changes neither the completed flag nor the key. -/
theorem drain_clean_pre (cfg : Config) (xs : List String) :
    ∀ (st : St) (zs : List String), st.outList = xs ++ zs →
      (∀ l ∈ xs, cleanLine l = true) →
      (drain cfg xs.length st).1 = xs.map (fun l => l ++ "\n") ∧
      (drain cfg xs.length st).2.outList = zs ∧
      (drain cfg xs.length st).2.taskCompleted = st.taskCompleted ∧
      (drain cfg xs.length st).2.keyExists = st.keyExists := by
  induction xs with
  | nil =>
    intro st zs h _
    exact ⟨rfl, by simpa using h, rfl, rfl⟩
  | cons l ls ih =>
    intro st zs h hc
    have hcl : cleanLine l = true := hc l (by simp)
    have hfor : classifyItem l = ItemOutcome.forward l := clean_classify l hcl
    have hcons : st.outList = l :: (ls ++ zs) := by simpa using h
    rw [List.length_cons, drain_succ_forward cfg ls.length st l l (ls ++ zs) hcons hfor]
    have := ih { st with outList := ls ++ zs, lastMessageTime := st.clock,
                         clock := st.clock + cfg.pause } zs rfl
      (fun x hx => hc x (by simp [hx]))
    refine ⟨?_, this.2.1, this.2.2.1, this.2.2.2⟩
    simp [this.1]

/-- Draining a snapshot that reaches a sentinel after a run of clean lines
forwards exactly the clean lines, never forwards the sentinel, sets the
completed flag, stops popping at the sentinel, and leaves everything after the
sentinel in the list. -/
theorem drain_to_sentinel (cfg : Config) (s : String) (hs : isSentinel s = true)
    (lines : List String) :
    ∀ (n : Nat) (st : St) (zs : List String), st.outList = lines ++ s :: zs →
      lines.length < n → (∀ l ∈ lines, cleanLine l = true) →
      (drain cfg n st).1 = lines.map (fun l => l ++ "\n") ∧
      (drain cfg n st).2.outList = zs ∧
      (drain cfg n st).2.taskCompleted = true ∧
      (drain cfg n st).2.keyExists = st.keyExists := by
  induction lines with
  | nil =>
    intro n st zs h hn _
    obtain ⟨m, rfl⟩ : ∃ m, n = m + 1 := ⟨n - 1, by omega⟩
    have hcons : st.outList = s :: zs := by simpa using h
    rw [drain_succ_sentinel cfg m st s zs hcons (sentinel_classify s hs)]
    exact ⟨rfl, rfl, rfl, rfl⟩
  | cons l ls ih =>
    intro n st zs h hn hc
    obtain ⟨m, rfl⟩ : ∃ m, n = m + 1 := ⟨n - 1, by omega⟩
    have hcl : cleanLine l = true := hc l (by simp)
    have hfor : classifyItem l = ItemOutcome.forward l := clean_classify l hcl
    have hcons : st.outList = l :: (ls ++ s :: zs) := by simpa using h
    rw [drain_succ_forward cfg m st l l (ls ++ s :: zs) hcons hfor]
    have := ih m { st with outList := ls ++ s :: zs, lastMessageTime := st.clock,
                           clock := st.clock + cfg.pause } zs rfl
      (by simpa using Nat.lt_of_succ_lt_succ hn)
      (fun x hx => hc x (by simp [hx]))
    refine ⟨?_, this.2.1, this.2.2.1, this.2.2.2⟩
    simp [this.1]

/-- The drain loop pops at most its fuel from the head of the list: what
remains afterwards is a suffix of the list it started from, obtained by
dropping at most `n` elements. -/
theorem drain_outList_suffix (cfg : Config) :
    ∀ (n : Nat) (st : St), ∃ k, k ≤ n ∧ (drain cfg n st).2.outList = st.outList.drop k := by
  intro n
  induction n with
  | zero => intro st; exact ⟨0, Nat.le_refl 0, rfl⟩
  | succ m ih =>
    intro st
    cases hl : st.outList with
    | nil =>
      rw [drain_succ_nil cfg m st hl]
      obtain ⟨k, hk, he⟩ := ih st
      refine ⟨k, Nat.le_succ_of_le hk, ?_⟩
      rw [he, hl]
    | cons raw rest =>
      cases hcl : classifyItem raw with
      | skip =>
        rw [drain_succ_skip cfg m st raw rest hl hcl]
        obtain ⟨k, hk, he⟩ := ih { st with outList := rest }
        refine ⟨k + 1, Nat.succ_le_succ hk, ?_⟩
        rw [List.drop_succ_cons]
        simpa using he
      | sentinel =>
        rw [drain_succ_sentinel cfg m st raw rest hl hcl]
        exact ⟨1, Nat.succ_le_succ (Nat.zero_le m), by simp⟩
      | forward line =>
        rw [drain_succ_forward cfg m st raw line rest hl hcl]
        obtain ⟨k, hk, he⟩ := ih { st with outList := rest,
                                           lastMessageTime := st.clock,
                                           clock := st.clock + cfg.pause }
        refine ⟨k + 1, Nat.succ_le_succ hk, ?_⟩
        rw [List.drop_succ_cons]
        simpa using he

/-! ### Framing of output units -/

theorem data_append (s t : String) : (s ++ t).data = s.data ++ t.data := by
  obtain ⟨a⟩ := s
  obtain ⟨b⟩ := t
  rfl

theorem removeNewlines_no_nl (s : String) : '\n' ∉ (removeNewlines s).data := by
  intro h
  have h2 := List.mem_filter.mp h
  simp at h2

theorem wellFramed_line (s : String) (h : '\n' ∉ s.data) :
    wellFramed (s ++ "\n") = true := by
  have hc : s.data.count '\n' = 0 := List.count_eq_zero.mpr h
  have hd : (s ++ "\n").data = s.data ++ ['\n'] := data_append s ("\n")
  have h1 : (s ++ "\n").data.count '\n' = 1 := by
    rw [hd, List.count_append, hc]
    simp
  have h2 : (s ++ "\n").data.getLast? = some '\n' := by
    rw [hd, List.getLast?_concat]
  simp [wellFramed, h1, h2, hc]

theorem classify_forward_no_nl (raw line : String)
    (h : classifyItem raw = ItemOutcome.forward line) : '\n' ∉ line.data := by
  unfold classifyItem at h
  split at h
  · exact absurd h (by simp)
  · split at h
    · exact absurd h (by simp)
    · rw [ItemOutcome.forward.injEq] at h
      rw [← h]
      exact removeNewlines_no_nl (pyStrip raw)

/-- Every line yielded by the drain loop is a forwarded popped value:
newline-free after sanitisation, with a single trailing newline appended. -/
theorem drain_framed (cfg : Config) :
    ∀ (n : Nat) (st : St) (u : String), u ∈ (drain cfg n st).1 → wellFramed u = true := by
  intro n
  induction n with
  | zero => intro st u hu; simp [drain_zero] at hu
  | succ m ih =>
    intro st u hu
    cases hl : st.outList with
    | nil =>
      rw [drain_succ_nil cfg m st hl] at hu
      exact ih st u hu
    | cons raw rest =>
      cases hcl : classifyItem raw with
      | skip =>
        rw [drain_succ_skip cfg m st raw rest hl hcl] at hu
        exact ih _ u hu
      | sentinel =>
        rw [drain_succ_sentinel cfg m st raw rest hl hcl] at hu
        simp at hu
      | forward line =>
        rw [drain_succ_forward cfg m st raw line rest hl hcl] at hu
        rcases List.mem_cons.mp hu with h | h
        · subst h
          exact wellFramed_line line (classify_forward_no_nl raw line hcl)
        · exact ih _ u h

/-! ### Tick-level behaviour -/

/-- A tick that starts with the completed flag set and an empty list breaks
out of the loop (DONE) without yielding anything. -/
theorem tick_completed_done (cfg : Config) (env : TickEnv) (st : St)
    (h1 : st.taskCompleted = true) (h2 : st.outList = []) (h3 : env.preAppends = []) :
    (tick cfg env st).out = [] ∧ (tick cfg env st).status = Status.done := by
  cases hke : st.keyExists <;> cases hde : env.delKey <;>
    simp [tick, applyEnv, h1, h2, h3, hke, hde]

/-- A tick that observes a missing metadata key and an empty list breaks out
of the loop (DONE) without yielding anything, whatever the completed flag
was. -/
theorem tick_missing_done (cfg : Config) (env : TickEnv) (st : St)
    (h1 : (st.keyExists && !env.delKey) = false) (h2 : st.outList = [])
    (h3 : env.preAppends = []) :
    (tick cfg env st).out = [] ∧ (tick cfg env st).status = Status.done := by
  cases hke : st.keyExists <;> cases hde : env.delKey
  · simp [tick, applyEnv, h2, h3, hke, hde]
  · simp [tick, applyEnv, h2, h3, hke, hde]
  · rw [hke, hde] at h1
    simp at h1
  · simp [tick, applyEnv, h2, h3, hke, hde]

/-- A tick that is still polling (not completed, key present), sees an empty
list, and whose elapsed time since the last forwarded line exceeds `maxtime`,
yields the configured timeout message exactly once when it is nonempty (zero
times when empty) and breaks out of the loop (TIMED_OUT). -/
theorem tick_timeout (cfg : Config) (env : TickEnv) (st : St)
    (h1 : st.taskCompleted = false) (h2 : st.outList = []) (h3 : env.preAppends = [])
    (h4 : st.keyExists = true) (h5 : env.delKey = false)
    (h6 : cfg.maxtime < st.clock + env.dt - st.lastMessageTime) :
    (tick cfg env st).out =
      (if cfg.maxtimeError = "" then [] else [cfg.maxtimeError ++ "\n"]) ∧
    (tick cfg env st).status = Status.timedOut := by
  simp [tick, applyEnv, h1, h2, h3, h4, h5, h6]

/-- A tick whose visible list is a nonempty run of clean lines (metadata key
present) forwards exactly those lines in order, leaves only the lines that
arrived during its drain, and preserves the completed flag. -/
theorem tick_drains_live (cfg : Config) (env : TickEnv) (st : St) (lines : List String)
    (h0 : st.outList ++ env.preAppends = lines) (h1 : lines ≠ [])
    (hc : ∀ l ∈ lines, cleanLine l = true)
    (h4 : st.keyExists = true) (h5 : env.delKey = false) :
    (tick cfg env st).out = lines.map (fun l => l ++ "\n") ∧
    (tick cfg env st).status = Status.running ∧
    (tick cfg env st).st.outList = env.midAppends ∧
    (tick cfg env st).st.taskCompleted = st.taskCompleted ∧
    (tick cfg env st).st.keyExists = true := by
  have hd := drain_clean_pre cfg lines
      { clock := st.clock + env.dt, lastMessageTime := st.lastMessageTime,
        taskCompleted := st.taskCompleted, keyExists := true,
        outList := lines ++ env.midAppends } env.midAppends rfl hc
  simp [tick, applyEnv, h0, h1, h4, h5]
  exact ⟨hd.1, hd.2.1, hd.2.2.1, hd.2.2.2⟩

/-- A tick whose visible list is a nonempty run of clean lines but whose
metadata key is gone still forwards all the lines (the drain happens before
the loop can break), sets the completed flag, and continues. -/
theorem tick_drains_dead (cfg : Config) (env : TickEnv) (st : St) (lines : List String)
    (h0 : st.outList ++ env.preAppends = lines) (h1 : lines ≠ [])
    (hc : ∀ l ∈ lines, cleanLine l = true) (h4 : st.keyExists = false) :
    (tick cfg env st).out = lines.map (fun l => l ++ "\n") ∧
    (tick cfg env st).status = Status.running ∧
    (tick cfg env st).st.outList = env.midAppends ∧
    (tick cfg env st).st.taskCompleted = true := by
  have hd := drain_clean_pre cfg lines
      { clock := st.clock + env.dt, lastMessageTime := st.lastMessageTime,
        taskCompleted := true, keyExists := false,
        outList := lines ++ env.midAppends } env.midAppends rfl hc
  simp [tick, applyEnv, h0, h1, h4]
  exact ⟨hd.1, hd.2.1, hd.2.2.1⟩

/-- A tick whose visible list is a run of clean lines directly followed by a
termination sentinel forwards exactly the clean lines, never the sentinel,
sets the completed flag, and continues into the next loop iteration. -/
theorem tick_drains_sentinel (cfg : Config) (env : TickEnv) (st : St)
    (lines : List String) (s : String)
    (h0 : st.outList ++ env.preAppends = lines ++ [s]) (hs : isSentinel s = true)
    (hc : ∀ l ∈ lines, cleanLine l = true) (hm : env.midAppends = [])
    (h4 : st.keyExists = true) (h5 : env.delKey = false) :
    (tick cfg env st).out = lines.map (fun l => l ++ "\n") ∧
    (tick cfg env st).status = Status.running ∧
    (tick cfg env st).st.outList = [] ∧
    (tick cfg env st).st.taskCompleted = true ∧
    (tick cfg env st).st.keyExists = true := by
  have hd := drain_to_sentinel cfg s hs lines (lines.length + 1)
      { clock := st.clock + env.dt, lastMessageTime := st.lastMessageTime,
        taskCompleted := st.taskCompleted, keyExists := true,
        outList := lines ++ [s] } [] (by simp) (by omega) hc
  simp [tick, applyEnv, h0, h4, h5, hm]
  exact ⟨hd.1, hd.2.1, hd.2.2.1, hd.2.2.2⟩

/-! ### Run-level unfolding -/

theorem run_zero (cfg : Config) (envs : List TickEnv) (st : St) :
    run cfg envs 0 st = { out := [], st := st, status := Status.running } := rfl

theorem run_succ (cfg : Config) (envs : List TickEnv) (fuel : Nat) (st : St) :
    run cfg envs (fuel + 1) st =
      (if (tick cfg (envs.headD quietEnv) st).status = Status.running then
        { out := (tick cfg (envs.headD quietEnv) st).out ++
                 (run cfg envs.tail fuel (tick cfg (envs.headD quietEnv) st).st).out,
          st := (run cfg envs.tail fuel (tick cfg (envs.headD quietEnv) st).st).st,
          status := (run cfg envs.tail fuel (tick cfg (envs.headD quietEnv) st).st).status }
      else tick cfg (envs.headD quietEnv) st) := rfl

theorem run_succ_stop (cfg : Config) (envs : List TickEnv) (fuel : Nat) (st : St)
    (h : (tick cfg (envs.headD quietEnv) st).status ≠ Status.running) :
    run cfg envs (fuel + 1) st = tick cfg (envs.headD quietEnv) st := by
  rw [run_succ, if_neg h]

theorem run_succ_cont (cfg : Config) (envs : List TickEnv) (fuel : Nat) (st : St)
    (h : (tick cfg (envs.headD quietEnv) st).status = Status.running) :
    run cfg envs (fuel + 1) st =
      { out := (tick cfg (envs.headD quietEnv) st).out ++
               (run cfg envs.tail fuel (tick cfg (envs.headD quietEnv) st).st).out,
        st := (run cfg envs.tail fuel (tick cfg (envs.headD quietEnv) st).st).st,
        status := (run cfg envs.tail fuel (tick cfg (envs.headD quietEnv) st).st).status } := by
  rw [run_succ, if_pos h]

/-! ### Framing through ticks and runs -/

theorem tick_framed (cfg : Config) (env : TickEnv) (st : St)
    (hmsg : '\n' ∉ cfg.maxtimeError.data) :
    ∀ u ∈ (tick cfg env st).out, wellFramed u = true := by
  intro u hu
  simp only [tick] at hu
  repeat' split at hu
  all_goals simp at hu
  all_goals first
    | (rw [hu]; exact wellFramed_line cfg.maxtimeError hmsg)
    | (exact drain_framed cfg _ _ u hu)

theorem run_framed (cfg : Config) (hmsg : '\n' ∉ cfg.maxtimeError.data) :
    ∀ (fuel : Nat) (envs : List TickEnv) (st : St) (u : String),
      u ∈ (run cfg envs fuel st).out → wellFramed u = true := by
  intro fuel
  induction fuel with
  | zero =>
    intro envs st u hu
    simp [run_zero] at hu
  | succ m ih =>
    intro envs st u hu
    by_cases h : (tick cfg (envs.headD quietEnv) st).status = Status.running
    · rw [run_succ_cont cfg envs m st h] at hu
      rcases List.mem_append.mp (by simpa using hu) with h1 | h1
      · exact tick_framed cfg _ st hmsg u h1
      · exact ih envs.tail _ u h1
    · rw [run_succ_stop cfg envs m st h] at hu
      exact tick_framed cfg _ st hmsg u hu

/-! ### Whole-stream delivery -/

/-- Running the relay against a schedule that appends one nonempty chunk of
clean producer lines per poll tick and finally a single termination sentinel
yields exactly the concatenation of the chunks, in append order, and ends in
DONE. -/
theorem run_chunks (cfg : Config) (s : String) (hs : isSentinel s = true) :
    ∀ chunks : List (List String), (∀ ch ∈ chunks, ch ≠ []) →
      (∀ ch ∈ chunks, ∀ l ∈ ch, cleanLine l = true) →
      ∀ st : St, st.outList = [] → st.taskCompleted = false → st.keyExists = true →
      (run cfg ((chunks ++ [[s]]).map appendEnv) (chunks.length + 2) st).out
        = chunks.flatten.map (fun l => l ++ "\n") ∧
      (run cfg ((chunks ++ [[s]]).map appendEnv) (chunks.length + 2) st).status
        = Status.done := by
  intro chunks
  induction chunks with
  | nil =>
    intro _ _ st h1 h2 h3
    have e1 : ((([] : List (List String)) ++ [[s]]).map appendEnv) = [appendEnv [s]] := by
      simp
    have e2 : (([] : List (List String)).length + 2) = 1 + 1 := rfl
    rw [e1, e2]
    have ht := tick_drains_sentinel cfg (appendEnv [s]) st [] s
        (by simp [appendEnv, h1]) hs (by simp) rfl h3 rfl
    have hcont := run_succ_cont cfg [appendEnv [s]] 1 st ht.2.1
    rw [hcont]
    simp only [List.headD_cons, List.tail_cons]
    have ht2 := tick_completed_done cfg quietEnv (tick cfg (appendEnv [s]) st).st
        ht.2.2.2.1 ht.2.2.1 rfl
    have hstop : run cfg [] 1 (tick cfg (appendEnv [s]) st).st
        = tick cfg quietEnv (tick cfg (appendEnv [s]) st).st :=
      run_succ_stop cfg [] 0 (tick cfg (appendEnv [s]) st).st
        (by rw [show ([] : List TickEnv).headD quietEnv = quietEnv from rfl, ht2.2]; simp)
    rw [hstop]
    exact ⟨by simp [ht.1, ht2.1], ht2.2⟩
  | cons ch chs ih =>
    intro hne hc st h1 h2 h3
    have hchne : ch ≠ [] := hne ch (by simp)
    have hchc : ∀ l ∈ ch, cleanLine l = true := hc ch (by simp)
    have e1 : (((ch :: chs) ++ [[s]]).map appendEnv)
        = appendEnv ch :: (chs ++ [[s]]).map appendEnv := by simp
    have e2 : (ch :: chs).length + 2 = (chs.length + 2) + 1 := by
      rw [List.length_cons]
    rw [e1, e2]
    have ht := tick_drains_live cfg (appendEnv ch) st ch
        (by simp [appendEnv, h1]) hchne hchc h3 rfl
    have hcont := run_succ_cont cfg (appendEnv ch :: (chs ++ [[s]]).map appendEnv)
        (chs.length + 2) st ht.2.1
    rw [hcont]
    simp only [List.headD_cons, List.tail_cons]
    have hih := ih (fun c hc2 => hne c (by simp [hc2]))
        (fun c hc2 => hc c (by simp [hc2]))
        (tick cfg (appendEnv ch) st).st
        (by simpa [appendEnv] using ht.2.2.1)
        (by rw [ht.2.2.2.1]; exact h2) ht.2.2.2.2
    refine ⟨?_, hih.2⟩
    rw [ht.1, hih.1, ← List.map_append, ← List.flatten_cons]

/-! ### Concrete instances used by witnesses and counterexamples -/

/-- The default configuration of the source (INTERVAL 200, PAUSE 20,
MAXTIME 45000, empty MAXTIME_ERROR). -/
def cfgA : Config := { interval := 200, pause := 20, maxtime := 45000, maxtimeError := "" }

/-- A configuration with a short idle timeout and a nonempty timeout
message. -/
def cfgT : Config := { interval := 200, pause := 20, maxtime := 100, maxtimeError := "TIMEOUT" }

/-- A configuration whose timeout message contains an embedded newline. -/
def cfgNL : Config := { interval := 200, pause := 20, maxtime := 100, maxtimeError := "a\nb" }

/-- An environment in which 500 ms pass before the tick. -/
def envT : TickEnv := { dt := 500, preAppends := [], delKey := false, midAppends := [] }

/-- An environment in which 200 ms pass before the tick. -/
def envNL : TickEnv := { dt := 200, preAppends := [], delKey := false, midAppends := [] }

/-! ### Claim theorems -/

/-- Claim C1: on every exit path of the stream relay, normal completion
(DONE), timeout (TIMED_OUT), or a run cut short at an arbitrary point (an
exception from a store access or a client disconnect closing the generator),
the scope-guaranteed cleanup deletes both the metadata key and the output
key before the relay releases the connection, so after termination both keys
are absent from the store; moreover the cleanup removes both keys from any
state whatsoever. -/
theorem cleanup_on_every_exit_path :
    ∀ (cfg : Config) (envs : List TickEnv) (fuel : Nat) (st0 : St),
      ((stream_generator cfg envs fuel st0).st.keyExists = false ∧
       (stream_generator cfg envs fuel st0).st.outList = []) ∧
      ∀ st : St, (destroy st).keyExists = false ∧ (destroy st).outList = [] :=
  fun _ _ _ _ => ⟨⟨rfl, rfl⟩, fun _ => ⟨rfl, rfl⟩⟩

/-- Claim C2: for every sequence of clean (stripped, newline-free), nonempty,
non-sentinel lines appended in order, one nonempty chunk per poll tick,
followed by exactly one termination sentinel, the relay yields exactly the
appended lines in their append order, each exactly once, the sentinel
excluded, and the stream ends in DONE. -/
theorem relay_delivers_lines_in_order (cfg : Config) (c0 : Nat)
    (chunks : List (List String)) (s : String)
    (hne : ∀ ch ∈ chunks, ch ≠ [])
    (hc : ∀ ch ∈ chunks, ∀ l ∈ ch, cleanLine l = true)
    (hs : isSentinel s = true) :
    (run cfg ((chunks ++ [[s]]).map appendEnv) (chunks.length + 2) (initSt c0 true [])).out
      = chunks.flatten.map (fun l => l ++ "\n") ∧
    (run cfg ((chunks ++ [[s]]).map appendEnv) (chunks.length + 2) (initSt c0 true [])).status
      = Status.done :=
  run_chunks cfg s hs chunks hne hc (initSt c0 true []) rfl rfl rfl

theorem relay_delivers_lines_in_order_witness :
    (run cfgA ((([[("a")], [("b"), ("c")]] : List (List String)) ++ [[("EOF")]]).map appendEnv)
        (([[("a")], [("b"), ("c")]] : List (List String)).length + 2) (initSt 0 true [])).out
      = [("a\n"), ("b\n"), ("c\n")] ∧
    (run cfgA ((([[("a")], [("b"), ("c")]] : List (List String)) ++ [[("EOF")]]).map appendEnv)
        (([[("a")], [("b"), ("c")]] : List (List String)).length + 2) (initSt 0 true [])).status
      = Status.done := by
  have h := relay_delivers_lines_in_order cfgA 0 [[("a")], [("b"), ("c")]] ("EOF")
      (by decide) (by decide) (by decide)
  exact ⟨by rw [h.1]; rfl, h.2⟩

/-- Claim C3 counterexample: with the output list holding the sentinel EOF
followed by the ordinary value x, the relay forwards x to the client even
though x is popped after the sentinel, before terminating in DONE; so the
sentinel does not prevent later popped values from being forwarded. -/
theorem value_popped_after_sentinel_is_forwarded :
    (run cfgA [] 3 (initSt 0 true [("EOF"), ("x")])).out = [("x\n")] ∧
    (run cfgA [] 3 (initSt 0 true [("EOF"), ("x")])).status = Status.done := by
  decide

/-- Claim C3 amended: a popped sentinel is never forwarded to the client; it
sets the completed flag and breaks the current drain loop at once, and once
the completed flag is set and the output list is empty the relay terminates
in DONE; values remaining in the list after the sentinel are however still
drained and forwarded on later ticks before that termination. -/
theorem sentinel_sets_completed_and_breaks :
    (∀ (cfg : Config) (n : Nat) (st : St) (raw : String) (rest : List String),
      st.outList = raw :: rest → isSentinel (pyStrip raw) = true →
      drain cfg (n + 1) st = ([], { st with outList := rest, taskCompleted := true })) ∧
    (∀ (cfg : Config) (env : TickEnv) (st : St),
      st.taskCompleted = true → st.outList = [] → env.preAppends = [] →
      (tick cfg env st).out = [] ∧ (tick cfg env st).status = Status.done) := by
  constructor
  · intro cfg n st raw rest h hsent
    exact drain_succ_sentinel cfg n st raw rest h (sentinel_classify_raw raw hsent)
  · intro cfg env st h1 h2 h3
    exact tick_completed_done cfg env st h1 h2 h3

theorem sentinel_sets_completed_and_breaks_witness :
    drain cfgA 5 { clock := 0, lastMessageTime := 0, taskCompleted := false,
                   keyExists := true, outList := [("EOF"), ("x")] }
      = ([], { clock := 0, lastMessageTime := 0, taskCompleted := true,
               keyExists := true, outList := [("x")] }) ∧
    (tick cfgA quietEnv { clock := 0, lastMessageTime := 0, taskCompleted := true,
                          keyExists := true, outList := [] }).out = [] ∧
    (tick cfgA quietEnv { clock := 0, lastMessageTime := 0, taskCompleted := true,
                          keyExists := true, outList := [] }).status = Status.done := by
  refine ⟨?_, ?_, ?_⟩
  · exact sentinel_sets_completed_and_breaks.1 cfgA 4 _ ("EOF") [("x")] rfl (by decide)
  · exact (sentinel_sets_completed_and_breaks.2 cfgA quietEnv _ rfl rfl rfl).1
  · exact (sentinel_sets_completed_and_breaks.2 cfgA quietEnv _ rfl rfl rfl).2

/-- Claim C4: if, while the relay is still polling (no sentinel seen, so the
completed flag is clear) with the metadata key present, the elapsed time
since the last forwarded line exceeds maxtime while the output list is empty,
the relay terminates in TIMED_OUT yielding from that point exactly the
configured timeout message once, or nothing when the message is configured
empty; and the idle timer starts at stream start, so before any forwarded
line the elapsed time is measured from stream start. -/
theorem idle_timeout_emits_message_once (cfg : Config) (envs : List TickEnv)
    (fuel : Nat) (st : St)
    (h1 : st.taskCompleted = false) (h2 : st.outList = []) (h3 : st.keyExists = true)
    (h4 : (envs.headD quietEnv).preAppends = [])
    (h5 : (envs.headD quietEnv).delKey = false)
    (h6 : cfg.maxtime < st.clock + (envs.headD quietEnv).dt - st.lastMessageTime) :
    ((run cfg envs (fuel + 1) st).out
        = (if cfg.maxtimeError = "" then [] else [cfg.maxtimeError ++ "\n"]) ∧
     (run cfg envs (fuel + 1) st).status = Status.timedOut) ∧
    ∀ (c : Nat) (k : Bool) (l : List String), (initSt c k l).lastMessageTime = c := by
  have ht := tick_timeout cfg (envs.headD quietEnv) st h1 h2 h4 h3 h5 h6
  have hstop := run_succ_stop cfg envs fuel st (by rw [ht.2]; simp)
  rw [hstop]
  exact ⟨⟨ht.1, ht.2⟩, fun _ _ _ => rfl⟩

theorem idle_timeout_emits_message_once_witness :
    cfgT.maxtime < 0 + envT.dt - 0 ∧
    (run cfgT [envT] 1 (initSt 0 true [])).out = [("TIMEOUT\n")] ∧
    (run cfgT [envT] 1 (initSt 0 true [])).status = Status.timedOut := by
  have h := idle_timeout_emits_message_once cfgT [envT] 0 (initSt 0 true [])
      rfl rfl rfl rfl rfl (by decide)
  exact ⟨by decide, by rw [h.1.1]; decide, h.1.2⟩

/-- Claim C5: a poll tick that finds the metadata key missing and the output
list empty terminates the stream in DONE with nothing forwarded from that
point on; in particular a stream whose key is gone before any line was
appended, with the list staying empty, ends in DONE with zero forwarded
lines; while a missing key with a nonempty list of clean lines does not end
the stream there: all remaining lines are drained and forwarded first, and
only then does the relay terminate in DONE. -/
theorem missing_key_drains_then_done :
    (∀ (cfg : Config) (envs : List TickEnv) (fuel : Nat) (st : St),
      st.keyExists = false → st.outList = [] → (envs.headD quietEnv).preAppends = [] →
      (run cfg envs (fuel + 1) st).out = [] ∧
      (run cfg envs (fuel + 1) st).status = Status.done) ∧
    (∀ (cfg : Config) (c0 : Nat) (xs : List String), xs ≠ [] →
      (∀ l ∈ xs, cleanLine l = true) →
      (run cfg [] 2 (initSt c0 false xs)).out = xs.map (fun l => l ++ "\n") ∧
      (run cfg [] 2 (initSt c0 false xs)).status = Status.done) := by
  constructor
  · intro cfg envs fuel st hk hl hp
    have ht := tick_missing_done cfg (envs.headD quietEnv) st (by rw [hk]; rfl) hl hp
    have hstop := run_succ_stop cfg envs fuel st (by rw [ht.2]; simp)
    rw [hstop]
    exact ht
  · intro cfg c0 xs hne hc
    have ht := tick_drains_dead cfg quietEnv (initSt c0 false xs) xs
        (by simp [quietEnv, initSt]) hne hc rfl
    have h2 : (run cfg ([] : List TickEnv) 2 (initSt c0 false xs))
        = run cfg [] (1 + 1) (initSt c0 false xs) := rfl
    have hcont : run cfg ([] : List TickEnv) (1 + 1) (initSt c0 false xs)
        = { out := (tick cfg quietEnv (initSt c0 false xs)).out ++
              (run cfg [] 1 (tick cfg quietEnv (initSt c0 false xs)).st).out,
            st := (run cfg [] 1 (tick cfg quietEnv (initSt c0 false xs)).st).st,
            status := (run cfg [] 1 (tick cfg quietEnv (initSt c0 false xs)).st).status } :=
      run_succ_cont cfg [] 1 (initSt c0 false xs) ht.2.1
    have ht2 := tick_completed_done cfg quietEnv (tick cfg quietEnv (initSt c0 false xs)).st
        ht.2.2.2 (by simpa [quietEnv] using ht.2.2.1) rfl
    have hstop : run cfg [] 1 (tick cfg quietEnv (initSt c0 false xs)).st
        = tick cfg quietEnv (tick cfg quietEnv (initSt c0 false xs)).st :=
      run_succ_stop cfg [] 0 (tick cfg quietEnv (initSt c0 false xs)).st
        (by rw [show ([] : List TickEnv).headD quietEnv = quietEnv from rfl, ht2.2]; simp)
    rw [h2, hcont, hstop]
    exact ⟨by simp [ht.1, ht2.1], ht2.2⟩

theorem missing_key_drains_then_done_witness :
    ((run cfgA [] 1 (initSt 0 false [])).out = [] ∧
     (run cfgA [] 1 (initSt 0 false [])).status = Status.done) ∧
    ((run cfgA [] 2 (initSt 0 false [("y")])).out = [("y\n")] ∧
     (run cfgA [] 2 (initSt 0 false [("y")])).status = Status.done) := by
  refine ⟨missing_key_drains_then_done.1 cfgA [] 0 (initSt 0 false []) rfl rfl rfl, ?_⟩
  have h := missing_key_drains_then_done.2 cfgA 0 [("y")] (by decide) (by decide)
  exact ⟨by rw [h.1]; rfl, h.2⟩

/-- Claim C6 counterexample: the relay yields the configured timeout message
verbatim with a newline appended; when that message itself contains a newline
the emitted unit carries an embedded newline, so not every yielded output
unit is a single line with exactly one trailing newline. -/
theorem timeout_message_can_break_framing :
    ("a\nb\n") ∈ (stream_generator cfgNL [envNL] 1 (initSt 0 true [])).out ∧
    wellFramed ("a\nb\n") = false := by
  decide

/-- Claim C6 amended: every output unit the relay yields that derives from a
popped value is a single line with exactly one trailing newline and no other
newline character (embedded newlines are stripped before forwarding); the
timeout message is emitted unsanitised with a newline appended, so the
invariant holds for all yielded units provided the configured timeout message
contains no newline character. -/
theorem output_units_well_framed (cfg : Config) (envs : List TickEnv) (fuel : Nat)
    (st0 : St) (u : String) (hmsg : '\n' ∉ cfg.maxtimeError.data)
    (hu : u ∈ (stream_generator cfg envs fuel st0).out) :
    wellFramed u = true :=
  run_framed cfg hmsg fuel envs st0 u hu

theorem output_units_well_framed_witness :
    '\n' ∉ cfgT.maxtimeError.data ∧ wellFramed ("TIMEOUT\n") = true := by
  refine ⟨by decide, ?_⟩
  exact output_units_well_framed cfgT [envT] 1 (initSt 0 true []) ("TIMEOUT\n")
    (by decide) (by decide)

/-- Claim C7: when the store ping fails at request time, the client receives
the explicit 504 unavailable-dependency error response and no task is
created: nothing is written to the store and nothing is published on the
dispatch channel. -/
theorem store_unavailable_creates_no_task :
    ∀ (pc : ProxyCfg) (now : Nat) (u : String) (hdrs : List (String × String))
      (b : String),
      handle_request pc false now u hdrs b
        = (HttpResp.error 504 ("\x7b\"error\": \"event-driver unavailable\"\x7d\n"),
           { sets := [], publishes := [] }) ∧
      (handle_request pc false now u hdrs b).2.sets = [] ∧
      (handle_request pc false now u hdrs b).2.publishes = [] :=
  fun _ _ _ _ _ => ⟨rfl, rfl, rfl⟩

/-- Claim C8: an absent pop result (the empty-list case of a drain-loop
iteration) or a popped value that is empty after stripping is skipped without
altering state: nothing is yielded for it, the idle timer, completed flag,
clock and key are untouched, only the popped item leaves the list, and the
loop continues with the remaining iterations. -/
theorem empty_pop_is_skipped :
    (∀ (cfg : Config) (n : Nat) (st : St), st.outList = [] →
      drain cfg (n + 1) st = drain cfg n st) ∧
    (∀ (cfg : Config) (n : Nat) (st : St) (raw : String) (rest : List String),
      st.outList = raw :: rest → pyStrip raw = "" →
      drain cfg (n + 1) st = drain cfg n { st with outList := rest }) ∧
    (∀ raw : String, pyStrip raw = "" → classifyItem raw = ItemOutcome.skip) := by
  refine ⟨?_, ?_, ?_⟩
  · intro cfg n st h
    exact drain_succ_nil cfg n st h
  · intro cfg n st raw rest h he
    exact drain_succ_skip cfg n st raw rest h (empty_classify raw he)
  · exact empty_classify

theorem empty_pop_is_skipped_witness :
    (drain cfgA 3 { clock := 7, lastMessageTime := 5, taskCompleted := false,
                    keyExists := true, outList := [] }
      = drain cfgA 2 { clock := 7, lastMessageTime := 5, taskCompleted := false,
                       keyExists := true, outList := [] }) ∧
    (drain cfgA 3 { clock := 7, lastMessageTime := 5, taskCompleted := false,
                    keyExists := true, outList := [("  "), ("z")] }
      = drain cfgA 2 { clock := 7, lastMessageTime := 5, taskCompleted := false,
                       keyExists := true, outList := [("z")] }) ∧
    classifyItem ("  ") = ItemOutcome.skip := by
  refine ⟨empty_pop_is_skipped.1 cfgA 2 _ rfl, ?_,
    empty_pop_is_skipped.2.2 ("  ") (by decide)⟩
  exact empty_pop_is_skipped.2.1 cfgA 2 _ ("  ") [("z")] rfl (by decide)

/-- Claim C9: the relay drains only the length snapshot taken at tick start:
the drain loop pops at most its snapshot count from the head, so what remains
afterwards is always a suffix of the list it started from; lines appended to
the list while a drain is running are not forwarded in that tick and remain
queued in order, and the following tick forwards them in order. -/
theorem snapshot_drain_defers_mid_appends (cfg : Config) (c0 : Nat)
    (xs zs : List String)
    (hxs : xs ≠ []) (hcx : ∀ l ∈ xs, cleanLine l = true)
    (hzs : zs ≠ []) (hcz : ∀ l ∈ zs, cleanLine l = true) :
    (∀ (n : Nat) (st : St), ∃ k, k ≤ n ∧
      (drain cfg n st).2.outList = st.outList.drop k) ∧
    ((tick cfg { dt := 0, preAppends := [], delKey := false, midAppends := zs }
        (initSt c0 true xs)).out = xs.map (fun l => l ++ "\n") ∧
     (tick cfg { dt := 0, preAppends := [], delKey := false, midAppends := zs }
        (initSt c0 true xs)).st.outList = zs) ∧
    (run cfg [{ dt := 0, preAppends := [], delKey := false, midAppends := zs }] 2
        (initSt c0 true xs)).out
      = xs.map (fun l => l ++ "\n") ++ zs.map (fun l => l ++ "\n") := by
  have ht := tick_drains_live cfg
      { dt := 0, preAppends := [], delKey := false, midAppends := zs }
      (initSt c0 true xs) xs (by simp [initSt]) hxs hcx rfl rfl
  refine ⟨drain_outList_suffix cfg, ⟨ht.1, ht.2.2.1⟩, ?_⟩
  have hcont := run_succ_cont cfg
      [{ dt := 0, preAppends := [], delKey := false, midAppends := zs }] 1
      (initSt c0 true xs) ht.2.1
  rw [show (2 : Nat) = 1 + 1 from rfl, hcont]
  simp only [List.headD_cons, List.tail_cons]
  have ht2 := tick_drains_live cfg quietEnv
      (tick cfg { dt := 0, preAppends := [], delKey := false, midAppends := zs }
        (initSt c0 true xs)).st zs
      (by simp [quietEnv, ht.2.2.1]) hzs hcz ht.2.2.2.2 rfl
  have hcont2 := run_succ_cont cfg []
      0 (tick cfg { dt := 0, preAppends := [], delKey := false, midAppends := zs }
          (initSt c0 true xs)).st ht2.2.1
  rw [hcont2]
  simp [ht.1, ht2.1, run_zero]

theorem snapshot_drain_defers_mid_appends_witness :
    (run cfgA [{ dt := 0, preAppends := [], delKey := false, midAppends := [("q")] }] 2
        (initSt 0 true [("p")])).out = [("p\n"), ("q\n")] := by
  have h := (snapshot_drain_defers_mid_appends cfgA 0 [("p")] [("q")]
      (by decide) (by decide) (by decide) (by decide)).2.2
  rw [h]
  rfl

/-- Claim C10: a popped value is recognised as a termination sentinel exactly
when its stripped form is one of the four case-sensitive strings END-OF-FILE,
END-OF-LIST, EOL, EOF; any popped value that is nonempty after stripping and
not one of these is forwarded as an ordinary line, stripped of leading and
trailing whitespace (and of interior newlines); in particular the lowercase
string eof is forwarded, not treated as a sentinel. -/
theorem sentinel_vocabulary :
    (∀ raw : String, classifyItem raw = ItemOutcome.sentinel ↔
      (pyStrip raw = "END-OF-FILE" ∨ pyStrip raw = "END-OF-LIST" ∨
       pyStrip raw = "EOL" ∨ pyStrip raw = "EOF")) ∧
    (∀ raw : String, pyStrip raw ≠ "" → isSentinel (pyStrip raw) = false →
      classifyItem raw = ItemOutcome.forward (removeNewlines (pyStrip raw))) ∧
    classifyItem ("eof") = ItemOutcome.forward ("eof") := by
  refine ⟨?_, ?_, by decide⟩
  · intro raw
    constructor
    · intro h
      unfold classifyItem at h
      split at h
      · exact absurd h (by simp)
      · split at h
        · rename_i hs2
          exact sentinel_cases (pyStrip raw) hs2
        · exact absurd h (by simp)
    · intro h
      refine sentinel_classify_raw raw ?_
      simp only [isSentinel, Bool.or_eq_true, beq_iff_eq]
      tauto
  · intro raw h1 h2
    simp [classifyItem, h1, h2]

theorem sentinel_vocabulary_witness :
    classifyItem (" hello ") = ItemOutcome.forward (removeNewlines (pyStrip (" hello "))) :=
  sentinel_vocabulary.2.1 (" hello ") (by decide) (by decide)

end NdjsonProxy
